import Mathlib

/-!
# Verification of the euicc-go-module UDP bridge

Shallow embedding of the repository's three source files:

* `driver/localnet/packetcmd.go` — the wire codec (gob-serialized,
  gzip-compressed command packets);
* `driver/localnet/simpleudp.go` — the client-side channel adapter;
* `server/main.go` — the session engine and its handlers.

Go byte slices are `List Nat` (each element a byte value); a Go `[]byte`
variable that may be `nil` is `Option (List Nat)` (`none` = nil slice).
Go strings are Lean `String`s.  Machine integers that matter (`uint8`
slot, channel bytes) are `Nat`, kept below 256 by the operations
themselves.  Time instants are `Nat`s on a monotone clock, so Go's
`time.Since(t)` at instant `now` is `now - t` (truncated subtraction).
-/

namespace EuiccGo

/-! ## Packet model (`driver/localnet/packetcmd.go`)

Go declares an interface hierarchy with three concrete types sharing an
embedded header: `PacketCmd {Cmd, Err}`, `PacketBody {PacketCmd, Body}`,
`PacketConnect {PacketCmd, Device, Proto, Slot}`.  We embed it as a sum
type; the `Cmd` tag is the Go `Cmd` string ("conn", "disc", ...). -/

inductive GoPacket where
  /-- `PacketCmd{Cmd, Err}` -/
  | plain (cmd err : String)
  /-- `PacketBody{PacketCmd{Cmd, Err}, Body}`; `Body : []byte` may be nil. -/
  | body (cmd err : String) (pbody : Option (List Nat))
  /-- `PacketConnect{PacketCmd{Cmd, Err}, Device, Proto, Slot}` -/
  | conn (cmd err device proto : String) (slot : Nat)
deriving DecidableEq, Repr

namespace GoPacket

/-- `GetCmd()` (packetcmd.go:97-99): every variant exposes its header command. -/
def getCmd : GoPacket → String
  | .plain c _ => c
  | .body c _ _ => c
  | .conn c _ _ _ _ => c

/-- `GetErr()` (packetcmd.go:101-103). -/
def getErr : GoPacket → String
  | .plain _ e => e
  | .body _ e _ => e
  | .conn _ e _ _ _ => e

/-- The Go type assertion `pcRcv.(localnet.IPacketBody)` succeeds exactly on
the `PacketBody` concrete type; `GetBody()` then returns the (possibly nil)
`Body` slice (packetcmd.go:105-107). -/
def asBody : GoPacket → Option (Option (List Nat))
  | .body _ _ b => some b
  | _ => none

/-- The Go type assertion `pcRcv.(localnet.IPacketConnect)` succeeds exactly
on the `PacketConnect` concrete type. -/
def asConnect : GoPacket → Option (String × String × Nat)
  | .conn _ _ d p s => some (d, p, s)
  | _ => none

end GoPacket

/-- `NewPacketCmd(cmd)` (packetcmd.go:137-139). -/
def NewPacketCmd (cmd : String) : GoPacket := .plain cmd ""

/-- `NewPacketCmdErr(cmd, err)` (packetcmd.go:141-143). -/
def NewPacketCmdErr (cmd err : String) : GoPacket := .plain cmd err

/-- `NewPacketBody(cmd, body)` (packetcmd.go:145-147): the Go callers always
pass a non-nil slice, embedded as `some body`. -/
def NewPacketBody (cmd : String) (pbody : List Nat) : GoPacket := .body cmd "" (some pbody)

/-- `NewPacketConnect(device, proto, slot)` (packetcmd.go:149-151). -/
def NewPacketConnect (device proto : String) (slot : Nat) : GoPacket :=
  .conn "conn" "" device proto slot

/-- Command tag constants (packetcmd.go:12-19). -/
def CmdConnect : String := "conn"
def CmdDisconnect : String := "disc"
def CmdOpenLogical : String := "opch"
def CmdCloseLogical : String := "clch"
def CmdTransmit : String := "tran"
def CmdResponse : String := "resp"

/-! ## Wire codec (`Encode`/`Decode`, packetcmd.go:55-95)

The Go codec is `gob` serialization of the interface value wrapped in a
`gzip` stream.  Both layers are Go standard-library code; we model their
observable semantics at the granularity the packets exercise:

* **gob**: an interface value is transmitted as the registered concrete
  type's name followed by the struct's fields in declaration order
  (embedded header fields flattened).  gob omits zero-valued fields from
  the transmission — the zero test for strings and slices is `len == 0` —
  and the decoder leaves an omitted field at the zero value of its type,
  which for a `[]byte` field is the nil slice.  We model omission with an
  explicit presence byte per field (0 = omitted, 1 = present) in place of
  gob's delta-encoded field numbers; a string or byte-slice value is
  length-prefixed.
* **gzip**: a lossless wrapper; `gzip.NewReader` rejects any stream that
  does not begin with the magic bytes `0x1f 0x8b` and compression
  method `8`.  We model the header check and treat the compressed body
  as the identity transform on the serialized bytes.
-/

/-- Length-prefixed string serialization (models gob's string wire form). -/
def encString (s : String) : List Nat :=
  s.toList.length :: s.toList.map Char.toNat

/-- A gob struct field holding a string: omitted (`[0]`) when the string is
empty, else present flag plus the value. -/
def encStrField (s : String) : List Nat :=
  if s = "" then [0] else 1 :: encString s

/-- A gob struct field holding an unsigned integer: omitted when zero. -/
def encNatField (n : Nat) : List Nat :=
  if n = 0 then [0] else [1, n]

/-- A gob struct field holding a `[]byte`: gob's zero test is `len == 0`,
so a nil slice **and** an empty non-nil slice are both omitted. -/
def encBytesField (b : Option (List Nat)) : List Nat :=
  if b.getD [] = [] then [0] else 1 :: (b.getD []).length :: b.getD []

/-- gob registered-type names (`gob.Register(&PacketCmd{})` etc.,
packetcmd.go:56-58 and 74-76). -/
def namePlain : String := "*localnet.PacketCmd"
def nameBody : String := "*localnet.PacketBody"
def nameConnect : String := "*localnet.PacketConnect"

/-- gob serialization of the interface value: registered concrete type name,
then the non-zero fields. -/
def gobEncode : GoPacket → List Nat
  | .plain c e => encString namePlain ++ encStrField c ++ encStrField e
  | .body c e b => encString nameBody ++ encStrField c ++ encStrField e ++ encBytesField b
  | .conn c e d p s =>
      encString nameConnect ++ encStrField c ++ encStrField e ++
        encStrField d ++ encStrField p ++ encNatField s

/-- Parse a length-prefixed string; fails on truncation. -/
def decString (l : List Nat) : Option (String × List Nat) :=
  match l with
  | n :: rest =>
      if n ≤ rest.length then
        some (String.mk ((rest.take n).map Char.ofNat), rest.drop n)
      else none
  | [] => none

/-- Parse a string-valued field (presence byte then value). -/
def decStrField (l : List Nat) : Option (String × List Nat) :=
  match l with
  | 0 :: rest => some ("", rest)
  | 1 :: rest => decString rest
  | _ => none

/-- Parse an unsigned-integer field. -/
def decNatField (l : List Nat) : Option (Nat × List Nat) :=
  match l with
  | 0 :: rest => some (0, rest)
  | 1 :: n :: rest => some (n, rest)
  | _ => none

/-- Parse a `[]byte` field.  An omitted field decodes to the zero value of
the field's type: the nil slice (`none`). -/
def decBytesField (l : List Nat) : Option (Option (List Nat) × List Nat) :=
  match l with
  | 0 :: rest => some (none, rest)
  | 1 :: n :: rest =>
      if n ≤ rest.length then some (some (rest.take n), rest.drop n) else none
  | _ => none

/-- gob deserialization of one interface value: read the concrete type name,
dispatch on it, read that struct's fields. -/
def gobDecode (l : List Nat) : Option GoPacket :=
  match decString l with
  | none => none
  | some (name, r0) =>
    if name = namePlain then
      match decStrField r0 with
      | none => none
      | some (c, r1) =>
        match decStrField r1 with
        | none => none
        | some (e, _) => some (.plain c e)
    else if name = nameBody then
      match decStrField r0 with
      | none => none
      | some (c, r1) =>
        match decStrField r1 with
        | none => none
        | some (e, r2) =>
          match decBytesField r2 with
          | none => none
          | some (b, _) => some (.body c e b)
    else if name = nameConnect then
      match decStrField r0 with
      | none => none
      | some (c, r1) =>
        match decStrField r1 with
        | none => none
        | some (e, r2) =>
          match decStrField r2 with
          | none => none
          | some (d, r3) =>
            match decStrField r3 with
            | none => none
            | some (p, r4) =>
              match decNatField r4 with
              | none => none
              | some (s, _) => some (.conn c e d p s)
    else none

/-- `Encode` (packetcmd.go:73-95): gob-serialize the interface value and
wrap it in a gzip stream (magic `0x1f 0x8b`, method 8, then the
compressed body, modelled as the identity on the gob bytes).  For the
first-party packet values (registered types) Go's error paths are
unreachable, so the model is total. -/
def Encode (p : GoPacket) : List Nat :=
  31 :: 139 :: 8 :: gobEncode p

/-- `Decode` (packetcmd.go:55-71): `gzip.NewReader` rejects a stream
without the gzip header; the gob decoder then reads one interface value
and reports any truncation or corruption as an error.  Total on
arbitrary byte sequences — every failure is a returned error, never a
panic (gob converts internal faults to errors via `recover`). -/
def Decode (l : List Nat) : Except String GoPacket :=
  match l with
  | m1 :: m2 :: cm :: rest =>
      if m1 = 31 ∧ m2 = 139 ∧ cm = 8 then
        match gobDecode rest with
        | some p => .ok p
        | none => .error "gob: malformed packet"
      else .error "gzip: invalid header"
  | _ => .error "gzip: invalid header"

/-- What gob's zero-field omission does to a `[]byte` field on a round
trip: a field of length 0 — nil or empty — is not transmitted, and the
decoder leaves the field at its zero value, the nil slice. -/
def normBody (b : Option (List Nat)) : Option (List Nat) :=
  if b.getD [] = [] then none else some (b.getD [])

/-- The packet produced by a `Decode ∘ Encode` round trip: identical to
the input except that an empty payload comes back as the absent (nil)
payload. -/
def normalizePayload : GoPacket → GoPacket
  | .plain c e => .plain c e
  | .body c e b => .body c e (normBody b)
  | .conn c e d p s => .conn c e d p s

/-! ## Server session engine (`server/main.go`)

The handlers mutate two package-level variables under the single mutex
`channelMu`: `options.Channel` (the live driver capability, nil when
absent — modelled as a `Bool` presence flag, since the capability itself
is an external collaborator) and `activeSession`.  Every request is
processed sequentially under the lock, so each handler is a pure function
of the state, the decoded packet, the origin address, the current instant
and the outcomes of the external driver calls.  The driver constructors
(`at.New`, `mbim.New`, `qmi.New`, `qmi.NewQRTR`) and the capability
methods live in the external `damonto/euicc-go` module; their outcomes
enter the model through an oracle, and every call a handler issues is
recorded in an explicit trace. -/

/-- `*net.UDPAddr`: the (IP, port) origin pair.  The IP is abstracted to
an opaque numeric key; `net.IP.Equal` becomes equality of keys. -/
structure UDPAddr where
  ip : Nat
  port : Nat
deriving DecidableEq, Repr

/-- Renders an address for the `%s` interpolations in error messages
(nil pointers print as `<nil>` in Go). -/
def addrString : Option UDPAddr → String
  | none => "<nil>"
  | some a => toString a.ip ++ ":" ++ toString a.port

/-- `addressesEqual` (main.go:411-416): nil-safe (IP, port) comparison. -/
def addressesEqual : Option UDPAddr → Option UDPAddr → Bool
  | none, _ => false
  | _, none => false
  | some a1, some a2 => a1.ip == a2.ip && a1.port == a2.port

/-- Modelled from the spec: the sentinel logical-channel value meaning "no
channel open" (§6 of the design: "A sentinel invalid channel value must
exist distinct from all valid channel ids").  The defining source file of
`localnet.InvalidChannel` is not among the provided sources; the handlers
only ever compare against it, so its numeric value is irrelevant to every
property proved here.  It is fixed at 255, the value the client adapter
returns on failure. -/
def InvalidChannel : Nat := 255

/-- `Session` (main.go:23-28). -/
structure Session where
  remoteAddr : Option UDPAddr
  logicalChannel : Nat
  startedAt : Nat
  lastActivity : Nat
deriving DecidableEq, Repr

/-- The session-engine globals guarded by `channelMu` (main.go:30-35):
`activeSession`, and whether `options.Channel` is non-nil. -/
structure ServerState where
  activeSession : Option Session
  channel : Bool
deriving DecidableEq, Repr

/-- One driver-capability call, as the handlers issue them.  `construct`
records that the protocol-selected constructor ran (`at.New(device)`,
`mbim.New(device, slot)`, `qmi.New(device, slot)` or
`qmi.NewQRTR(slot)`, main.go:182-190). -/
inductive DriverCall where
  | construct (proto : String)
  | connect
  | disconnect
  | transmit (apdu : List Nat)
  | openLogicalChannel (aid : List Nat)
  | closeLogicalChannel (channel : Nat)
deriving DecidableEq, Repr

/-- Outcomes of the external driver operations — the model's stand-in for
the out-of-scope hardware drivers.  `Except.error e` carries the Go
`err.Error()` string.  `newDriver` is given the protocol, device and slot
(each Go constructor reads the subset it needs) and reports whether
construction succeeded; on failure the returned channel is nil. -/
structure DriverOracle where
  newDriver : String → String → Nat → Except String Unit
  connect : Except String Unit
  disconnect : Except String Unit
  transmit : List Nat → Except String (List Nat)
  openLogicalChannel : List Nat → Except String Nat
  closeLogicalChannel : Nat → Except String Unit

/-- A handler's outcome: the response packet, the new global state, and
the trace of driver-capability calls it made. -/
structure HOut where
  resp : GoPacket
  state : ServerState
  calls : List DriverCall
deriving Repr

/-- `forceCleanup` (main.go:393-403): if a session and a capability both
exist, best-effort close any open logical channel, disconnect the driver
(both results discarded) and drop the capability; in every case clear the
session. -/
def forceCleanup (s : ServerState) : ServerState × List DriverCall :=
  match s.activeSession, s.channel with
  | some sess, true =>
      (⟨none, false⟩,
        (if sess.logicalChannel ≠ InvalidChannel then
          [DriverCall.closeLogicalChannel sess.logicalChannel]
        else []) ++ [DriverCall.disconnect])
  | _, _ => (⟨none, s.channel⟩, [])

/-- `checkSessionAuth` (main.go:354-370): no-session, then address
mismatch, then lazy expiry (which force-cleans as a side effect), in that
order.  Returns the error (if any), the possibly-mutated state, and the
driver calls made by the cleanup. -/
def checkSessionAuth (timeout now : Nat) (s : ServerState)
    (remoteAddr : Option UDPAddr) : Option String × ServerState × List DriverCall :=
  match s.activeSession with
  | none => (some "no active session, connect first", s, [])
  | some sess =>
      if ¬ addressesEqual sess.remoteAddr remoteAddr then
        (some ("unauthorized: session belongs to " ++ addrString sess.remoteAddr), s, [])
      else if now - sess.lastActivity > timeout then
        let sc := forceCleanup s
        (some "session expired", sc.1, sc.2)
      else (none, s, [])

/-- The part of `handleConnect` after the busy/expiry gate
(main.go:176-221): assert the connect packet type, resolve the protocol
to a constructor, construct and connect the driver, and on success create
the session.  `cs1` is the trace already produced by the gate. -/
def handleConnectBody (o : DriverOracle) (now : Nat) (s1 : ServerState)
    (cs1 : List DriverCall) (pcRcv : GoPacket) (remoteAddr : Option UDPAddr) : HOut :=
  match pcRcv.asConnect with
  | none => ⟨NewPacketCmdErr CmdResponse "invalid packet type for connect", s1, cs1⟩
  | some (device, proto, slot) =>
      if proto = "at" ∨ proto = "mbim" ∨ proto = "qmi" ∨ proto = "qrtr" then
        match o.newDriver proto device slot with
        | .error e =>
            ⟨NewPacketCmdErr CmdResponse e, ⟨s1.activeSession, false⟩,
              cs1 ++ [DriverCall.construct proto]⟩
        | .ok _ =>
            match o.connect with
            | .error e =>
                ⟨NewPacketCmdErr CmdResponse e, ⟨s1.activeSession, false⟩,
                  cs1 ++ [DriverCall.construct proto, DriverCall.connect]⟩
            | .ok _ =>
                ⟨NewPacketCmd CmdResponse,
                  ⟨some ⟨remoteAddr, InvalidChannel, now, now⟩, true⟩,
                  cs1 ++ [DriverCall.construct proto, DriverCall.connect]⟩
      else
        ⟨NewPacketCmdErr CmdResponse ("unsupported protocol: " ++ proto), s1, cs1⟩

/-- `handleConnect` (main.go:161-221): if a session exists and its idle
time is still below the timeout, reply Busy; if it exists but has
expired, force-clean it and proceed. -/
def handleConnect (o : DriverOracle) (timeout now : Nat) (s : ServerState)
    (pcRcv : GoPacket) (remoteAddr : Option UDPAddr) : HOut :=
  match s.activeSession with
  | some sess =>
      if now - sess.lastActivity < timeout then
        ⟨NewPacketCmdErr CmdResponse
          ("device busy, in use by " ++ addrString sess.remoteAddr), s, []⟩
      else
        let sc := forceCleanup s
        handleConnectBody o now sc.1 sc.2 pcRcv remoteAddr
  | none => handleConnectBody o now s [] pcRcv remoteAddr

/-- `handleDisconnect` (main.go:223-258): authorization inline (no expiry
check), best-effort close of any open logical channel (result logged,
never returned), then driver disconnect; the session and the capability
are cleared whatever the driver reports, and only the disconnect error is
surfaced. -/
def handleDisconnect (o : DriverOracle) (s : ServerState)
    (remoteAddr : Option UDPAddr) : HOut :=
  match s.activeSession with
  | none => ⟨NewPacketCmdErr CmdResponse "no active session", s, []⟩
  | some sess =>
      if ¬ addressesEqual sess.remoteAddr remoteAddr then
        ⟨NewPacketCmdErr CmdResponse
          ("unauthorized: session belongs to " ++ addrString sess.remoteAddr), s, []⟩
      else
        let closeCalls : List DriverCall :=
          if s.channel then
            if sess.logicalChannel ≠ InvalidChannel then
              [DriverCall.closeLogicalChannel sess.logicalChannel]
            else []
          else []
        if s.channel then
          match o.disconnect with
          | .error e =>
              ⟨NewPacketCmdErr CmdResponse e, ⟨none, false⟩,
                closeCalls ++ [DriverCall.disconnect]⟩
          | .ok _ =>
              ⟨NewPacketCmd CmdResponse, ⟨none, false⟩,
                closeCalls ++ [DriverCall.disconnect]⟩
        else ⟨NewPacketCmd CmdResponse, ⟨none, false⟩, closeCalls⟩

/-- `handleOpenLogical` (main.go:260-289).  `none` marks the Go runtime
panic of calling a method on a nil `options.Channel` or mutating a nil
`activeSession`; the session invariant proves it unreachable. -/
def handleOpenLogical (o : DriverOracle) (timeout now : Nat) (s : ServerState)
    (pcRcv : GoPacket) (remoteAddr : Option UDPAddr) : Option HOut :=
  match checkSessionAuth timeout now s remoteAddr with
  | (some e, s1, cs) => some ⟨NewPacketCmdErr CmdResponse e, s1, cs⟩
  | (none, s1, cs) =>
      match pcRcv.asBody with
      | none => some ⟨NewPacketCmdErr CmdResponse "invalid packet type", s1, cs⟩
      | some b =>
          let aid := b.getD []
          if aid.length = 0 then
            some ⟨NewPacketCmdErr CmdResponse "empty AID", s1, cs⟩
          else if s1.channel = false then none
          else
            match o.openLogicalChannel aid with
            | .error e =>
                some ⟨NewPacketCmdErr CmdResponse e, s1,
                  cs ++ [DriverCall.openLogicalChannel aid]⟩
            | .ok ch =>
                match s1.activeSession with
                | none => none
                | some sess =>
                    some ⟨NewPacketBody CmdResponse [ch],
                      ⟨some { sess with logicalChannel := ch, lastActivity := now },
                        s1.channel⟩,
                      cs ++ [DriverCall.openLogicalChannel aid]⟩

/-- `handleCloseLogical` (main.go:291-319). -/
def handleCloseLogical (o : DriverOracle) (timeout now : Nat) (s : ServerState)
    (pcRcv : GoPacket) (remoteAddr : Option UDPAddr) : Option HOut :=
  match checkSessionAuth timeout now s remoteAddr with
  | (some e, s1, cs) => some ⟨NewPacketCmdErr CmdResponse e, s1, cs⟩
  | (none, s1, cs) =>
      match pcRcv.asBody with
      | none => some ⟨NewPacketCmdErr CmdResponse "invalid packet", s1, cs⟩
      | some b =>
          match b.getD [] with
          | [] => some ⟨NewPacketCmdErr CmdResponse "invalid packet", s1, cs⟩
          | channel :: _ =>
              if s1.channel = false then none
              else
                match o.closeLogicalChannel channel with
                | .error e =>
                    some ⟨NewPacketCmdErr CmdResponse e, s1,
                      cs ++ [DriverCall.closeLogicalChannel channel]⟩
                | .ok _ =>
                    match s1.activeSession with
                    | none => none
                    | some sess =>
                        some ⟨NewPacketCmd CmdResponse,
                          ⟨some { sess with
                              logicalChannel :=
                                if sess.logicalChannel = channel then InvalidChannel
                                else sess.logicalChannel,
                              lastActivity := now },
                            s1.channel⟩,
                          cs ++ [DriverCall.closeLogicalChannel channel]⟩

/-- `handleTransmit` (main.go:321-352). -/
def handleTransmit (o : DriverOracle) (timeout now : Nat) (s : ServerState)
    (pcRcv : GoPacket) (remoteAddr : Option UDPAddr) : Option HOut :=
  match checkSessionAuth timeout now s remoteAddr with
  | (some e, s1, cs) => some ⟨NewPacketCmdErr CmdResponse e, s1, cs⟩
  | (none, s1, cs) =>
      match pcRcv.asBody with
      | none => some ⟨NewPacketCmdErr CmdResponse "invalid packet type", s1, cs⟩
      | some b =>
          let apdu := b.getD []
          if apdu.length = 0 then
            some ⟨NewPacketCmdErr CmdResponse "empty APDU", s1, cs⟩
          else if s1.channel = false then none
          else
            match o.transmit apdu with
            | .error e =>
                some ⟨NewPacketCmdErr CmdResponse e, s1,
                  cs ++ [DriverCall.transmit apdu]⟩
            | .ok response =>
                match s1.activeSession with
                | none => none
                | some sess =>
                    some ⟨NewPacketBody CmdResponse response,
                      ⟨some { sess with lastActivity := now }, s1.channel⟩,
                      cs ++ [DriverCall.transmit apdu]⟩

/-- `handleCommand` (main.go:137-159): dispatch on the packet's command
tag; unknown tags get an error reply. -/
def handleCommand (o : DriverOracle) (timeout now : Nat) (s : ServerState)
    (pcRcv : GoPacket) (remoteAddr : Option UDPAddr) : Option HOut :=
  if pcRcv.getCmd = CmdConnect then
    some (handleConnect o timeout now s pcRcv remoteAddr)
  else if pcRcv.getCmd = CmdDisconnect then
    some (handleDisconnect o s remoteAddr)
  else if pcRcv.getCmd = CmdOpenLogical then
    handleOpenLogical o timeout now s pcRcv remoteAddr
  else if pcRcv.getCmd = CmdCloseLogical then
    handleCloseLogical o timeout now s pcRcv remoteAddr
  else if pcRcv.getCmd = CmdTransmit then
    handleTransmit o timeout now s pcRcv remoteAddr
  else
    some ⟨NewPacketCmdErr CmdResponse "unknown command", s, []⟩

/-- One tick of the background reaper (`sessionCleanup`,
main.go:380-388): force-clean an idle-expired session. -/
def reaperTick (timeout now : Nat) (s : ServerState) : ServerState × List DriverCall :=
  match s.activeSession with
  | some sess =>
      if now - sess.lastActivity > timeout then forceCleanup s else (s, [])
  | none => (s, [])

/-- `cleanupActiveSession` (main.go:405-409), run on shutdown. -/
def cleanupActiveSession (s : ServerState) : ServerState × List DriverCall :=
  forceCleanup s

/-- The session invariant of claim C9: an active session implies a live
capability handle. -/
def SessionInv (s : ServerState) : Prop :=
  s.activeSession.isSome → s.channel = true

instance (s : ServerState) : Decidable (SessionInv s) := by
  unfold SessionInv; infer_instance

/-! ## Client channel adapter (`driver/localnet/simpleudp.go`)

`remoteCall` (simpleudp.go:74-108) performs one synchronous
request/response round trip over the UDP socket.  The socket is modelled
by an oracle for the write and read outcomes, and a trace records the
socket operations actually performed.  The Go `fmt.Errorf` wrappers
interpolate the packet (via its `String()` method, packetcmd.go:121-135)
and the receive buffer (`%X`), so those renderings are modelled too. -/

/-- Uppercase hex digit. -/
def hexDigit (n : Nat) : Char :=
  if n < 10 then Char.ofNat (48 + n) else Char.ofNat (55 + n)

/-- One byte under Go's `%X` (two uppercase hex digits). -/
def byteHex (b : Nat) : String :=
  String.mk [hexDigit (b / 16 % 16), hexDigit (b % 16)]

/-- A byte slice under `%X`: concatenated, no separators. -/
def bytesHex (l : List Nat) : String :=
  String.join (l.map byteHex)

/-- Go's `%4d`: decimal, space-padded on the left to width 4. -/
def pad4 (n : Nat) : String :=
  let s := toString n
  if s.length < 4 then String.mk (List.replicate (4 - s.length) ' ') ++ s else s

/-- `PacketCmd.String()` (packetcmd.go:121-127). -/
def headerStr (c e : String) : String :=
  if e = "" then "Cmd: " ++ c else "Cmd: " ++ c ++ ", Err: " ++ e

/-- The `String()` methods of the three packet types (packetcmd.go:121-135). -/
def packetStr : GoPacket → String
  | .plain c e => headerStr c e
  | .body c e b =>
      headerStr c e ++ ", Body(size): " ++ pad4 (b.getD []).length ++
        ", Body(hex): " ++ bytesHex (b.getD [])
  | .conn c e d p s =>
      headerStr c e ++ ", Device: " ++ d ++ ", Proto: " ++ p ++ ", Slot: " ++ toString s

/-- A socket operation performed by `remoteCall`. -/
inductive NetOp where
  | write (data : List Nat)
  | read
deriving DecidableEq, Repr

/-- Outcomes of the client socket operations: whether `conn.Write`
succeeds, and what `conn.ReadFromUDP` returns (the datagram read, or a
read error). -/
structure NetOracle where
  write : List Nat → Except String Unit
  read : Except String (List Nat)

/-- `remoteCall` (simpleudp.go:74-108): encode (never fails for
first-party packets), send, receive, decode, turn a non-empty server
error string into a failure, else surface the body (nil for a bodyless
response).  `bufSize` is `NetContext.bufferSize`, defaulted to 2048 when
zero (simpleudp.go:86-88); on a read error Go interpolates the whole
still-zeroed receive buffer with `%X`. -/
def remoteCall (no : NetOracle) (bufSize : Nat) (pcSnd : GoPacket) :
    Except String (Option (List Nat)) × List NetOp :=
  let byteToTransmit := Encode pcSnd
  match no.write byteToTransmit with
  | .error e2 =>
      (.error ("error sending message " ++ packetStr pcSnd ++ " " ++ e2),
        [NetOp.write byteToTransmit])
  | .ok _ =>
      let effSize := if bufSize = 0 then 2048 else bufSize
      match no.read with
      | .error e3 =>
          (.error ("error receiving response " ++
            bytesHex (List.replicate effSize 0) ++ " " ++ e3),
            [NetOp.write byteToTransmit, NetOp.read])
      | .ok buf =>
          match Decode buf with
          | .error e4 =>
              (.error ("error decoding response " ++ bytesHex buf ++ " " ++ e4),
                [NetOp.write byteToTransmit, NetOp.read])
          | .ok pcRcv =>
              if pcRcv.getErr ≠ "" then
                (.error ("error on server " ++ pcRcv.getErr),
                  [NetOp.write byteToTransmit, NetOp.read])
              else
                match pcRcv.asBody with
                | some b => (.ok b, [NetOp.write byteToTransmit, NetOp.read])
                | none => (.ok none, [NetOp.write byteToTransmit, NetOp.read])

/-- `OpenLogicalChannel` (simpleudp.go:59-67): one `remoteCall` with the
AID; on any failure return channel 255 with the error; a successful reply
whose body is not exactly one byte (`bb == nil || len(bb) != 1`) is the
protocol error `"openlogicalchannel: empty channel received"`; otherwise
the single body byte. -/
def OpenLogicalChannel (no : NetOracle) (bufSize : Nat) (aid : List Nat) :
    (Nat × Option String) × List NetOp :=
  let rc := remoteCall no bufSize (NewPacketBody CmdOpenLogical aid)
  match rc.1 with
  | .error er => ((255, some er), rc.2)
  | .ok bb =>
      match bb with
      | some [x] => ((x, none), rc.2)
      | _ => ((255, some "openlogicalchannel: empty channel received"), rc.2)

/-- A driver oracle whose operations all succeed (used to instantiate
universally quantified statements at a concrete input). -/
def oracleOK : DriverOracle where
  newDriver := fun _ _ _ => .ok ()
  connect := .ok ()
  disconnect := .ok ()
  transmit := fun apdu => .ok apdu
  openLogicalChannel := fun _ => .ok 1
  closeLogicalChannel := fun _ => .ok ()

/-! ### Round-trip lemmas for the serializer pieces -/

theorem decString_encString (s : String) (rest : List Nat) :
    decString (encString s ++ rest) = some (s, rest) := by
  obtain ⟨data⟩ := s
  simp only [encString, String.toList, decString, List.cons_append, List.append_assoc]
  rw [if_pos (by simp)]
  rw [List.take_left' (by simp), List.drop_left' (by simp)]
  simp [List.map_map, Function.comp_def, Char.ofNat_toNat]

theorem decStrField_encStrField (s : String) (rest : List Nat) :
    decStrField (encStrField s ++ rest) = some (s, rest) := by
  by_cases h : s = ""
  · subst h; simp [encStrField, decStrField]
  · simp only [encStrField, if_neg h, List.cons_append, decStrField]
    exact decString_encString s rest

theorem decNatField_encNatField (n : Nat) (rest : List Nat) :
    decNatField (encNatField n ++ rest) = some (n, rest) := by
  by_cases h : n = 0
  · subst h; simp [encNatField, decNatField]
  · simp only [encNatField, if_neg h, List.cons_append, decNatField]
    match n, h with
    | Nat.succ m, _ => rfl

theorem decBytesField_encBytesField (b : Option (List Nat)) (rest : List Nat) :
    decBytesField (encBytesField b ++ rest) = some (normBody b, rest) := by
  by_cases h : b.getD [] = []
  · simp [encBytesField, decBytesField, normBody, h]
  · simp only [encBytesField, if_neg h, List.cons_append, normBody]
    match hb : b.getD [], h with
    | x :: xs, _ =>
      simp only [decBytesField]
      rw [if_pos (by simp)]
      rw [List.take_left' rfl, List.drop_left' rfl]

theorem namePlain_ne_nameBody : namePlain ≠ nameBody := by decide
theorem nameBody_ne_namePlain : nameBody ≠ namePlain := by decide
theorem nameConnect_ne_namePlain : nameConnect ≠ namePlain := by decide
theorem nameConnect_ne_nameBody : nameConnect ≠ nameBody := by decide

theorem decStrField_encStrField_nil (s : String) :
    decStrField (encStrField s) = some (s, []) := by
  simpa using decStrField_encStrField s []

theorem decNatField_encNatField_nil (n : Nat) :
    decNatField (encNatField n) = some (n, []) := by
  simpa using decNatField_encNatField n []

theorem decBytesField_encBytesField_nil (b : Option (List Nat)) :
    decBytesField (encBytesField b) = some (normBody b, []) := by
  simpa using decBytesField_encBytesField b []

/-- The complete round trip: `Decode` of `Encode` always succeeds and
returns the packet with its payload normalized (empty ↦ absent). -/
theorem decode_encode (p : GoPacket) :
    Decode (Encode p) = .ok (normalizePayload p) := by
  cases p with
  | plain c e =>
      simp only [Encode, Decode, gobEncode, gobDecode, normalizePayload, List.append_assoc,
        decString_encString, decStrField_encStrField, if_pos rfl]
      simp [decStrField_encStrField_nil]
  | body c e b =>
      simp only [Encode, Decode, gobEncode, gobDecode, normalizePayload, List.append_assoc,
        decString_encString, decStrField_encStrField,
        if_neg nameBody_ne_namePlain, if_pos rfl]
      simp [decBytesField_encBytesField_nil]
  | conn c e d pr s =>
      simp only [Encode, Decode, gobEncode, gobDecode, normalizePayload, List.append_assoc,
        decString_encString, decStrField_encStrField,
        if_neg nameConnect_ne_namePlain, if_neg nameConnect_ne_nameBody, if_pos rfl]
      simp [decStrField_encStrField, decNatField_encNatField_nil]

/-! ### Truncation is always rejected

Every proper prefix of an encoded packet fails to decode: either the gzip
header is incomplete or the gob value is cut inside the type name or a
field. -/

theorem take_append_long (a b : List Nat) (k : Nat) (h : a.length ≤ k) :
    (a ++ b).take k = a ++ b.take (k - a.length) := by
  rw [List.take_append_eq_append_take, List.take_of_length_le h]

theorem decString_take_short (s : String) (rest : List Nat) (k : Nat)
    (h : k < (encString s).length) :
    decString ((encString s ++ rest).take k) = none := by
  obtain ⟨data⟩ := s
  have hm : k < data.length + 1 := by simpa [encString, String.toList] using h
  match k with
  | 0 => rfl
  | Nat.succ m =>
      simp only [encString, String.toList, List.cons_append, List.take_succ_cons, decString]
      have hlen : ((List.map Char.toNat data ++ rest).take m).length ≤ m := by
        simp [List.length_take]
      rw [if_neg (by omega)]

theorem decString_encString_take_long (s : String) (rest : List Nat) (k : Nat)
    (h : (encString s).length ≤ k) :
    decString ((encString s ++ rest).take k) =
      some (s, rest.take (k - (encString s).length)) := by
  rw [take_append_long _ _ _ h, decString_encString]

theorem decStrField_take_short (s : String) (rest : List Nat) (k : Nat)
    (h : k < (encStrField s).length) :
    decStrField ((encStrField s ++ rest).take k) = none := by
  by_cases hs : s = ""
  · subst hs
    have hk : k = 0 := by simpa [encStrField] using h
    subst hk; rfl
  · simp only [encStrField, if_neg hs] at h ⊢
    match k with
    | 0 => rfl
    | Nat.succ m =>
        simp only [List.cons_append, List.take_succ_cons, decStrField]
        have hm : m < (encString s).length := by
          simp only [List.length_cons] at h; omega
        exact decString_take_short s rest m hm

theorem decStrField_take_short_nil (s : String) (k : Nat)
    (h : k < (encStrField s).length) :
    decStrField ((encStrField s).take k) = none := by
  simpa using decStrField_take_short s [] k h

theorem decStrField_encStrField_take_long (s : String) (rest : List Nat) (k : Nat)
    (h : (encStrField s).length ≤ k) :
    decStrField ((encStrField s ++ rest).take k) =
      some (s, rest.take (k - (encStrField s).length)) := by
  rw [take_append_long _ _ _ h, decStrField_encStrField]

theorem decNatField_take_short (n : Nat) (rest : List Nat) (k : Nat)
    (h : k < (encNatField n).length) :
    decNatField ((encNatField n ++ rest).take k) = none := by
  by_cases hn : n = 0
  · subst hn
    have hk : k = 0 := by simpa [encNatField] using h
    subst hk; rfl
  · simp only [encNatField, if_neg hn] at h ⊢
    match k, h with
    | 0, _ => rfl
    | 1, _ => rfl
    | (m+2), hh => simp only [List.length_cons, List.length_nil] at hh; omega

theorem decNatField_take_short_nil (n : Nat) (k : Nat)
    (h : k < (encNatField n).length) :
    decNatField ((encNatField n).take k) = none := by
  simpa using decNatField_take_short n [] k h

theorem decBytesField_take_short (b : Option (List Nat)) (rest : List Nat) (k : Nat)
    (h : k < (encBytesField b).length) :
    decBytesField ((encBytesField b ++ rest).take k) = none := by
  by_cases hb : b.getD [] = []
  · have hk : k = 0 := by simpa [encBytesField, hb] using h
    subst hk; rfl
  · simp only [encBytesField, if_neg hb] at h ⊢
    match k, h with
    | 0, _ => rfl
    | 1, _ => rfl
    | (m+2), hh =>
        simp only [List.cons_append, List.take_succ_cons, decBytesField]
        have hlen : ((b.getD [] ++ rest).take m).length ≤ m := by
          simp [List.length_take]
        have hm : m < (b.getD []).length := by
          simp only [List.length_cons] at hh; omega
        rw [if_neg (by omega)]

theorem decBytesField_take_short_nil (b : Option (List Nat)) (k : Nat)
    (h : k < (encBytesField b).length) :
    decBytesField ((encBytesField b).take k) = none := by
  simpa using decBytesField_take_short b [] k h

/-- A strict prefix of a gob-serialized packet never parses: the cut lands
inside the type name or inside one of the fields, and the corresponding
parser rejects. -/
theorem gobDecode_take_short (p : GoPacket) (j : Nat) (h : j < (gobEncode p).length) :
    gobDecode ((gobEncode p).take j) = none := by
  cases p with
  | plain c e =>
      simp only [gobEncode, List.append_assoc] at h ⊢
      by_cases h0 : j < (encString namePlain).length
      · simp only [gobDecode, decString_take_short _ _ _ h0, if_true]
      · push_neg at h0
        simp only [gobDecode, decString_encString_take_long _ _ _ h0, if_pos rfl]
        by_cases h1 : j - (encString namePlain).length < (encStrField c).length
        · simp only [decStrField_take_short _ _ _ h1, if_true]
        · push_neg at h1
          simp only [decStrField_encStrField_take_long _ _ _ h1]
          have h2 : j - (encString namePlain).length - (encStrField c).length <
              (encStrField e).length := by
            simp only [List.length_append] at h; omega
          simp only [decStrField_take_short_nil _ _ h2, if_true]
  | body c e b =>
      simp only [gobEncode, List.append_assoc] at h ⊢
      by_cases h0 : j < (encString nameBody).length
      · simp only [gobDecode, decString_take_short _ _ _ h0, if_true]
      · push_neg at h0
        simp only [gobDecode, decString_encString_take_long _ _ _ h0,
          if_neg nameBody_ne_namePlain, if_pos rfl]
        by_cases h1 : j - (encString nameBody).length < (encStrField c).length
        · simp only [decStrField_take_short _ _ _ h1, if_true]
        · push_neg at h1
          simp only [decStrField_encStrField_take_long _ _ _ h1]
          by_cases h2 : j - (encString nameBody).length - (encStrField c).length <
              (encStrField e).length
          · simp only [decStrField_take_short _ _ _ h2, if_true]
          · push_neg at h2
            simp only [decStrField_encStrField_take_long _ _ _ h2]
            have h3 : j - (encString nameBody).length - (encStrField c).length -
                (encStrField e).length < (encBytesField b).length := by
              simp only [List.length_append] at h; omega
            simp only [decBytesField_take_short_nil _ _ h3, if_true]
  | conn c e d pr s =>
      simp only [gobEncode, List.append_assoc] at h ⊢
      by_cases h0 : j < (encString nameConnect).length
      · simp only [gobDecode, decString_take_short _ _ _ h0, if_true]
      · push_neg at h0
        simp only [gobDecode, decString_encString_take_long _ _ _ h0,
          if_neg nameConnect_ne_namePlain, if_neg nameConnect_ne_nameBody, if_pos rfl]
        by_cases h1 : j - (encString nameConnect).length < (encStrField c).length
        · simp only [decStrField_take_short _ _ _ h1, if_true]
        · push_neg at h1
          simp only [decStrField_encStrField_take_long _ _ _ h1]
          by_cases h2 : j - (encString nameConnect).length - (encStrField c).length <
              (encStrField e).length
          · simp only [decStrField_take_short _ _ _ h2, if_true]
          · push_neg at h2
            simp only [decStrField_encStrField_take_long _ _ _ h2]
            by_cases h3 : j - (encString nameConnect).length - (encStrField c).length -
                (encStrField e).length < (encStrField d).length
            · simp only [decStrField_take_short _ _ _ h3, if_true]
            · push_neg at h3
              simp only [decStrField_encStrField_take_long _ _ _ h3]
              by_cases h4 : j - (encString nameConnect).length - (encStrField c).length -
                  (encStrField e).length - (encStrField d).length < (encStrField pr).length
              · simp only [decStrField_take_short _ _ _ h4, if_true]
              · push_neg at h4
                simp only [decStrField_encStrField_take_long _ _ _ h4]
                have h5 : j - (encString nameConnect).length - (encStrField c).length -
                    (encStrField e).length - (encStrField d).length -
                    (encStrField pr).length < (encNatField s).length := by
                  simp only [List.length_append] at h; omega
                simp only [decNatField_take_short_nil _ _ h5, if_true]

/-! ## Session-engine lemmas -/

theorem append_ne_empty_left (a b : String) (ha : a ≠ "") : a ++ b ≠ "" := by
  intro he
  have hd : (a ++ b).data = a.data ++ b.data := String.data_append a b
  rw [he] at hd
  have : a.data = [] := (List.append_eq_nil.mp hd.symm).1
  exact ha (by cases a; simp_all)

theorem forceCleanup_activeSession (s : ServerState) :
    (forceCleanup s).1.activeSession = none := by
  unfold forceCleanup
  cases s.activeSession <;> cases hc : s.channel <;> simp [hc]

theorem sessionInv_forceCleanup (s : ServerState) : SessionInv (forceCleanup s).1 := by
  intro h
  rw [forceCleanup_activeSession] at h
  simp at h

theorem forceCleanup_of_active (s : ServerState) (sess : Session)
    (hs : s.activeSession = some sess) (hc : s.channel = true) :
    forceCleanup s =
      (⟨none, false⟩,
        (if sess.logicalChannel ≠ InvalidChannel then
          [DriverCall.closeLogicalChannel sess.logicalChannel]
        else []) ++ [DriverCall.disconnect]) := by
  unfold forceCleanup
  rw [hs, hc]

theorem checkSessionAuth_no_session (timeout now : Nat) (s : ServerState)
    (r : Option UDPAddr) (h : s.activeSession = none) :
    checkSessionAuth timeout now s r = (some "no active session, connect first", s, []) := by
  unfold checkSessionAuth; rw [h]

theorem checkSessionAuth_unauthorized (timeout now : Nat) (s : ServerState)
    (r : Option UDPAddr) (sess : Session) (h : s.activeSession = some sess)
    (hne : addressesEqual sess.remoteAddr r = false) :
    checkSessionAuth timeout now s r =
      (some ("unauthorized: session belongs to " ++ addrString sess.remoteAddr), s, []) := by
  unfold checkSessionAuth; rw [h]; simp [hne]

theorem checkSessionAuth_expired (timeout now : Nat) (s : ServerState)
    (r : Option UDPAddr) (sess : Session) (h : s.activeSession = some sess)
    (heq : addressesEqual sess.remoteAddr r = true)
    (hex : now - sess.lastActivity > timeout) :
    checkSessionAuth timeout now s r =
      (some "session expired", (forceCleanup s).1, (forceCleanup s).2) := by
  unfold checkSessionAuth; rw [h]; simp [heq, hex]

theorem checkSessionAuth_ok (timeout now : Nat) (s : ServerState)
    (r : Option UDPAddr) (sess : Session) (h : s.activeSession = some sess)
    (heq : addressesEqual sess.remoteAddr r = true)
    (hex : ¬ now - sess.lastActivity > timeout) :
    checkSessionAuth timeout now s r = (none, s, []) := by
  unfold checkSessionAuth; rw [h]; simp [heq, hex]

/-- **C1.** While an unexpired session is owned by origin A, every request
from a different origin B — open-logical-channel, close-logical-channel,
transmit or disconnect, and likewise connect — gets an error-bearing
response (Unauthorized for the four session operations, Busy for
connect), the state is unchanged, and no driver capability operation is
invoked (the driver-call trace is empty). -/
theorem unauthorized_origin_rejected_without_driver_calls
    (o : DriverOracle) (timeout now : Nat) (s : ServerState) (sess : Session)
    (pc : GoPacket) (r : Option UDPAddr)
    (hs : s.activeSession = some sess)
    (hne : addressesEqual sess.remoteAddr r = false)
    (hfresh : now - sess.lastActivity < timeout) :
    ∃ out, handleCommand o timeout now s pc r = some out ∧
      out.calls = [] ∧ out.state = s ∧ out.resp.getErr ≠ "" ∧
      (pc.getCmd = CmdConnect →
        out.resp.getErr = "device busy, in use by " ++ addrString sess.remoteAddr) ∧
      ((pc.getCmd = CmdDisconnect ∨ pc.getCmd = CmdOpenLogical ∨
        pc.getCmd = CmdCloseLogical ∨ pc.getCmd = CmdTransmit) →
        out.resp.getErr = "unauthorized: session belongs to " ++ addrString sess.remoteAddr) := by
  have hbusyne : ("device busy, in use by " ++ addrString sess.remoteAddr) ≠ "" :=
    append_ne_empty_left _ _ (by decide)
  have hunane : ("unauthorized: session belongs to " ++ addrString sess.remoteAddr) ≠ "" :=
    append_ne_empty_left _ _ (by decide)
  by_cases hc1 : pc.getCmd = CmdConnect
  · have hcmd : handleCommand o timeout now s pc r =
        some ⟨NewPacketCmdErr CmdResponse
          ("device busy, in use by " ++ addrString sess.remoteAddr), s, []⟩ := by
      unfold handleCommand handleConnect
      rw [if_pos hc1, hs]
      simp [hfresh]
    exact ⟨_, hcmd, rfl, rfl, hbusyne, fun _ => rfl, fun hdisj => by
      rcases hdisj with h | h | h | h <;> (rw [hc1] at h; exact absurd h (by decide))⟩
  by_cases hc2 : pc.getCmd = CmdDisconnect
  · have hcmd : handleCommand o timeout now s pc r =
        some ⟨NewPacketCmdErr CmdResponse
          ("unauthorized: session belongs to " ++ addrString sess.remoteAddr), s, []⟩ := by
      unfold handleCommand handleDisconnect
      rw [if_neg hc1, if_pos hc2, hs]
      simp [hne]
    exact ⟨_, hcmd, rfl, rfl, hunane, fun hconn => absurd hconn hc1, fun _ => rfl⟩
  by_cases hc3 : pc.getCmd = CmdOpenLogical
  · have hcmd : handleCommand o timeout now s pc r =
        some ⟨NewPacketCmdErr CmdResponse
          ("unauthorized: session belongs to " ++ addrString sess.remoteAddr), s, []⟩ := by
      unfold handleCommand handleOpenLogical
      rw [if_neg hc1, if_neg hc2, if_pos hc3,
        checkSessionAuth_unauthorized timeout now s r sess hs hne]
    exact ⟨_, hcmd, rfl, rfl, hunane, fun hconn => absurd hconn hc1, fun _ => rfl⟩
  by_cases hc4 : pc.getCmd = CmdCloseLogical
  · have hcmd : handleCommand o timeout now s pc r =
        some ⟨NewPacketCmdErr CmdResponse
          ("unauthorized: session belongs to " ++ addrString sess.remoteAddr), s, []⟩ := by
      unfold handleCommand handleCloseLogical
      rw [if_neg hc1, if_neg hc2, if_neg hc3, if_pos hc4,
        checkSessionAuth_unauthorized timeout now s r sess hs hne]
    exact ⟨_, hcmd, rfl, rfl, hunane, fun hconn => absurd hconn hc1, fun _ => rfl⟩
  by_cases hc5 : pc.getCmd = CmdTransmit
  · have hcmd : handleCommand o timeout now s pc r =
        some ⟨NewPacketCmdErr CmdResponse
          ("unauthorized: session belongs to " ++ addrString sess.remoteAddr), s, []⟩ := by
      unfold handleCommand handleTransmit
      rw [if_neg hc1, if_neg hc2, if_neg hc3, if_neg hc4, if_pos hc5,
        checkSessionAuth_unauthorized timeout now s r sess hs hne]
    exact ⟨_, hcmd, rfl, rfl, hunane, fun hconn => absurd hconn hc1, fun _ => rfl⟩
  · have hcmd : handleCommand o timeout now s pc r =
        some ⟨NewPacketCmdErr CmdResponse "unknown command", s, []⟩ := by
      unfold handleCommand
      rw [if_neg hc1, if_neg hc2, if_neg hc3, if_neg hc4, if_neg hc5]
    exact ⟨⟨NewPacketCmdErr CmdResponse "unknown command", s, []⟩, hcmd, rfl, rfl,
      (by decide : ("unknown command" : String) ≠ ""),
      fun hconn => absurd hconn hc1, fun hdisj => by
      rcases hdisj with h | h | h | h
      · exact absurd h hc2
      · exact absurd h hc3
      · exact absurd h hc4
      · exact absurd h hc5⟩

/-- Witness for C1 at a concrete input: a transmit from origin 2:2
against a fresh session owned by 1:1. -/
theorem unauthorized_origin_rejected_without_driver_calls_witness :
    ∃ out, handleCommand oracleOK 60 0
        ⟨some ⟨some ⟨1, 1⟩, InvalidChannel, 0, 0⟩, true⟩
        (NewPacketBody CmdTransmit [1]) (some ⟨2, 2⟩) = some out ∧
      out.calls = [] ∧ out.state = ⟨some ⟨some ⟨1, 1⟩, InvalidChannel, 0, 0⟩, true⟩ ∧
      out.resp.getErr ≠ "" ∧
      ((NewPacketBody CmdTransmit [1]).getCmd = CmdConnect →
        out.resp.getErr = "device busy, in use by " ++ addrString (some ⟨1, 1⟩)) ∧
      (((NewPacketBody CmdTransmit [1]).getCmd = CmdDisconnect ∨
        (NewPacketBody CmdTransmit [1]).getCmd = CmdOpenLogical ∨
        (NewPacketBody CmdTransmit [1]).getCmd = CmdCloseLogical ∨
        (NewPacketBody CmdTransmit [1]).getCmd = CmdTransmit) →
        out.resp.getErr = "unauthorized: session belongs to " ++ addrString (some ⟨1, 1⟩)) :=
  unauthorized_origin_rejected_without_driver_calls oracleOK 60 0
    ⟨some ⟨some ⟨1, 1⟩, InvalidChannel, 0, 0⟩, true⟩ ⟨some ⟨1, 1⟩, InvalidChannel, 0, 0⟩
    (NewPacketBody CmdTransmit [1]) (some ⟨2, 2⟩) rfl (by decide) (by decide)

theorem handleConnectBody_calls (o : DriverOracle) (now : Nat) (s1 : ServerState)
    (cs : List DriverCall) (pc : GoPacket) (r : Option UDPAddr) :
    handleConnectBody o now s1 cs pc r =
      ⟨(handleConnectBody o now s1 [] pc r).resp,
       (handleConnectBody o now s1 [] pc r).state,
       cs ++ (handleConnectBody o now s1 [] pc r).calls⟩ := by
  unfold handleConnectBody
  cases hpc : pc.asConnect with
  | none => simp
  | some t =>
      obtain ⟨d, p, sl⟩ := t
      by_cases hp : p = "at" ∨ p = "mbim" ∨ p = "qmi" ∨ p = "qrtr"
      · simp only [if_pos hp]
        cases o.newDriver p d sl with
        | error e => simp
        | ok u =>
            cases o.connect with
            | error e => simp
            | ok u2 => simp
      · simp [if_neg hp]

/-- **C4.** On connect with an existing session: below the timeout the
request fails Busy naming the owner and changes nothing; at or past the
timeout the session is force-torn-down first (session cleared, and when a
capability was held, channel closed if open, driver disconnected,
capability dropped) and the connect then proceeds exactly as it would
from the cleaned state — an expired session never blocks a new connect. -/
theorem connect_busy_or_lazy_eviction
    (o : DriverOracle) (timeout now : Nat) (s : ServerState) (sess : Session)
    (pc : GoPacket) (r : Option UDPAddr)
    (hs : s.activeSession = some sess) :
    (now - sess.lastActivity < timeout →
      handleConnect o timeout now s pc r =
        ⟨NewPacketCmdErr CmdResponse
          ("device busy, in use by " ++ addrString sess.remoteAddr), s, []⟩) ∧
    (timeout ≤ now - sess.lastActivity →
      (forceCleanup s).1.activeSession = none ∧
      (s.channel = true →
        (forceCleanup s).1 = ⟨none, false⟩ ∧
        (forceCleanup s).2 =
          (if sess.logicalChannel ≠ InvalidChannel then
            [DriverCall.closeLogicalChannel sess.logicalChannel]
          else []) ++ [DriverCall.disconnect]) ∧
      handleConnect o timeout now s pc r =
        ⟨(handleConnect o timeout now (forceCleanup s).1 pc r).resp,
         (handleConnect o timeout now (forceCleanup s).1 pc r).state,
         (forceCleanup s).2 ++
           (handleConnect o timeout now (forceCleanup s).1 pc r).calls⟩) := by
  constructor
  · intro hfresh
    unfold handleConnect
    rw [hs]
    simp [hfresh]
  · intro hexp
    have hnot : ¬ now - sess.lastActivity < timeout := by omega
    refine ⟨forceCleanup_activeSession s, ?_, ?_⟩
    · intro hch
      have := forceCleanup_of_active s sess hs hch
      exact ⟨by rw [this], by rw [this]⟩
    · have hL : handleConnect o timeout now s pc r =
          handleConnectBody o now (forceCleanup s).1 (forceCleanup s).2 pc r := by
        unfold handleConnect
        rw [hs]
        simp [hnot]
      have hR : handleConnect o timeout now (forceCleanup s).1 pc r =
          handleConnectBody o now (forceCleanup s).1 [] pc r := by
        unfold handleConnect
        rw [forceCleanup_activeSession]
      rw [hL, hR, handleConnectBody_calls]

/-- Witness for C4 at a concrete input: the Busy reply for a connect
against a fresh session owned by 1:1. -/
theorem connect_busy_or_lazy_eviction_witness :
    handleConnect oracleOK 60 0 ⟨some ⟨some ⟨1, 1⟩, InvalidChannel, 0, 0⟩, true⟩
        (NewPacketConnect "/dev/ttyUSB0" "at" 0) (some ⟨2, 2⟩) =
      ⟨NewPacketCmdErr CmdResponse ("device busy, in use by " ++ addrString (some ⟨1, 1⟩)),
        ⟨some ⟨some ⟨1, 1⟩, InvalidChannel, 0, 0⟩, true⟩, []⟩ :=
  (connect_busy_or_lazy_eviction oracleOK 60 0
    ⟨some ⟨some ⟨1, 1⟩, InvalidChannel, 0, 0⟩, true⟩ ⟨some ⟨1, 1⟩, InvalidChannel, 0, 0⟩
    (NewPacketConnect "/dev/ttyUSB0" "at" 0) (some ⟨2, 2⟩) rfl).1 (by decide)

/-- **C5 (counterexample).** A connect request with the unrecognized
protocol `"foo"` arriving while another origin holds an unexpired session
does **not** fail with UnsupportedProtocol: the busy check runs first, so
the reply is the Busy error. -/
theorem connect_unknown_proto_busy_counterexample :
    (handleConnect oracleOK 60 0 ⟨some ⟨some ⟨1, 1⟩, InvalidChannel, 0, 0⟩, true⟩
        (NewPacketConnect "/dev/x" "foo" 0) (some ⟨2, 2⟩)).resp.getErr =
      "device busy, in use by 1:1" ∧
    "device busy, in use by 1:1" ≠ "unsupported protocol: foo" :=
  ⟨rfl, by decide⟩

/-- **C5 (amended).** Provided no session record exists, a connect whose
protocol is none of at/mbim/qmi/qrtr always fails with the
UnsupportedProtocol error, leaves the state unchanged, and performs no
driver call at all — no constructor and no capability operation. -/
theorem connect_unknown_proto_rejected
    (o : DriverOracle) (timeout now : Nat) (s : ServerState)
    (pc : GoPacket) (r : Option UDPAddr) (d proto : String) (sl : Nat)
    (hs : s.activeSession = none)
    (hpc : pc.asConnect = some (d, proto, sl))
    (hproto : ¬ (proto = "at" ∨ proto = "mbim" ∨ proto = "qmi" ∨ proto = "qrtr")) :
    handleConnect o timeout now s pc r =
      ⟨NewPacketCmdErr CmdResponse ("unsupported protocol: " ++ proto), s, []⟩ := by
  have h1 : handleConnect o timeout now s pc r = handleConnectBody o now s [] pc r := by
    unfold handleConnect
    rw [hs]
  rw [h1]
  unfold handleConnectBody
  rw [hpc]
  simp [hproto]

/-- Witness for the amended C5 at a concrete input. -/
theorem connect_unknown_proto_rejected_witness :
    handleConnect oracleOK 60 0 ⟨none, false⟩
        (NewPacketConnect "/dev/x" "foo" 0) (some ⟨2, 2⟩) =
      ⟨NewPacketCmdErr CmdResponse ("unsupported protocol: " ++ "foo"), ⟨none, false⟩, []⟩ :=
  connect_unknown_proto_rejected oracleOK 60 0 ⟨none, false⟩
    (NewPacketConnect "/dev/x" "foo" 0) (some ⟨2, 2⟩) "/dev/x" "foo" 0
    rfl rfl (by decide)

/-- **C6.** The authorization check applies its three tests in order —
NoActiveSession when idle, Unauthorized on an (IP, port) mismatch
(regardless of expiry), SessionExpired (with forced teardown) when the
idle time exceeds the timeout — and otherwise passes without mutating
anything.  After a SessionExpired teardown, the triggering operation from
the former owner answers "session expired" with the session cleared, and
a subsequent connect (from any origin) is not blocked: with a willing
driver it succeeds. -/
theorem auth_check_order_and_expiry
    (o : DriverOracle) (timeout now : Nat) (s : ServerState) (r : Option UDPAddr) :
    (s.activeSession = none →
      checkSessionAuth timeout now s r = (some "no active session, connect first", s, [])) ∧
    (∀ sess, s.activeSession = some sess →
      addressesEqual sess.remoteAddr r = false →
      checkSessionAuth timeout now s r =
        (some ("unauthorized: session belongs to " ++ addrString sess.remoteAddr), s, [])) ∧
    (∀ sess, s.activeSession = some sess →
      addressesEqual sess.remoteAddr r = true →
      now - sess.lastActivity > timeout →
      checkSessionAuth timeout now s r =
        (some "session expired", (forceCleanup s).1, (forceCleanup s).2) ∧
      (forceCleanup s).1.activeSession = none ∧
      (∀ pc, pc.getCmd = CmdTransmit →
        ∃ out, handleCommand o timeout now s pc r = some out ∧
          out.resp.getErr = "session expired" ∧ out.state.activeSession = none) ∧
      (∀ (now2 : Nat) (pc2 : GoPacket) (r2 : Option UDPAddr) (dev pr : String) (sl : Nat),
        pc2.asConnect = some (dev, pr, sl) →
        (pr = "at" ∨ pr = "mbim" ∨ pr = "qmi" ∨ pr = "qrtr") →
        o.newDriver pr dev sl = .ok () →
        o.connect = .ok () →
        (handleConnect o timeout now2 (forceCleanup s).1 pc2 r2).resp.getErr = "")) ∧
    (∀ sess, s.activeSession = some sess →
      addressesEqual sess.remoteAddr r = true →
      ¬ now - sess.lastActivity > timeout →
      checkSessionAuth timeout now s r = (none, s, [])) := by
  refine ⟨fun h => checkSessionAuth_no_session timeout now s r h,
    fun sess hs hne => checkSessionAuth_unauthorized timeout now s r sess hs hne,
    fun sess hs heq hex => ⟨checkSessionAuth_expired timeout now s r sess hs heq hex,
      forceCleanup_activeSession s, ?_, ?_⟩,
    fun sess hs heq hex => checkSessionAuth_ok timeout now s r sess hs heq hex⟩
  · intro pc hpc
    have hcmd : handleCommand o timeout now s pc r =
        some ⟨NewPacketCmdErr CmdResponse "session expired",
          (forceCleanup s).1, (forceCleanup s).2⟩ := by
      unfold handleCommand
      rw [if_neg (by rw [hpc]; decide), if_neg (by rw [hpc]; decide),
        if_neg (by rw [hpc]; decide), if_neg (by rw [hpc]; decide), if_pos hpc]
      unfold handleTransmit
      rw [checkSessionAuth_expired timeout now s r sess hs heq hex]
    exact ⟨_, hcmd, rfl, forceCleanup_activeSession s⟩
  · intro now2 pc2 r2 dev pr sl hpc2 hpr hnew hconn
    have h1 : handleConnect o timeout now2 (forceCleanup s).1 pc2 r2 =
        handleConnectBody o now2 (forceCleanup s).1 [] pc2 r2 := by
      unfold handleConnect
      rw [forceCleanup_activeSession]
    rw [h1]
    unfold handleConnectBody
    rw [hpc2]
    simp [hpr, hnew, hconn, NewPacketCmd, GoPacket.getErr]

/-- Witness for C6 at a concrete input: the expired-session case. -/
theorem auth_check_order_and_expiry_witness :
    checkSessionAuth 60 100 ⟨some ⟨some ⟨1, 1⟩, InvalidChannel, 0, 0⟩, true⟩ (some ⟨1, 1⟩) =
      (some "session expired",
        (forceCleanup ⟨some ⟨some ⟨1, 1⟩, InvalidChannel, 0, 0⟩, true⟩).1,
        (forceCleanup ⟨some ⟨some ⟨1, 1⟩, InvalidChannel, 0, 0⟩, true⟩).2) :=
  ((auth_check_order_and_expiry oracleOK 60 100
      ⟨some ⟨some ⟨1, 1⟩, InvalidChannel, 0, 0⟩, true⟩ (some ⟨1, 1⟩)).2.2.1
    ⟨some ⟨1, 1⟩, InvalidChannel, 0, 0⟩ rfl (by decide) (by decide)).1

/-- **C7.** An authorized disconnect always returns the engine to Idle:
the session record and the capability flag are cleared whatever the
driver reports.  When a capability was held, the handler best-effort
closes any open logical channel (its outcome is never consulted), then
calls driver disconnect; a disconnect error is surfaced to the caller but
does not prevent the cleanup. -/
theorem disconnect_always_clears_session
    (o : DriverOracle) (s : ServerState) (sess : Session) (r : Option UDPAddr)
    (hs : s.activeSession = some sess)
    (heq : addressesEqual sess.remoteAddr r = true) :
    (handleDisconnect o s r).state = ⟨none, false⟩ ∧
    (s.channel = true →
      (handleDisconnect o s r).calls =
        (if sess.logicalChannel ≠ InvalidChannel then
          [DriverCall.closeLogicalChannel sess.logicalChannel]
        else []) ++ [DriverCall.disconnect] ∧
      (o.disconnect = .ok () → (handleDisconnect o s r).resp = NewPacketCmd CmdResponse) ∧
      (∀ e, o.disconnect = .error e →
        (handleDisconnect o s r).resp = NewPacketCmdErr CmdResponse e)) ∧
    (s.channel = false → (handleDisconnect o s r).resp = NewPacketCmd CmdResponse) := by
  by_cases hch : s.channel = true
  · cases ho : o.disconnect with
    | ok u =>
        have hD : handleDisconnect o s r =
            ⟨NewPacketCmd CmdResponse, ⟨none, false⟩,
              (if sess.logicalChannel ≠ InvalidChannel then
                [DriverCall.closeLogicalChannel sess.logicalChannel]
              else []) ++ [DriverCall.disconnect]⟩ := by
          unfold handleDisconnect
          rw [hs]
          simp [heq, hch, ho]
        refine ⟨by rw [hD], fun _ => ⟨by rw [hD], fun _ => by rw [hD], fun e he => ?_⟩,
          fun hf => ?_⟩
        · cases he
        · rw [hch] at hf; cases hf
    | error e0 =>
        have hD : handleDisconnect o s r =
            ⟨NewPacketCmdErr CmdResponse e0, ⟨none, false⟩,
              (if sess.logicalChannel ≠ InvalidChannel then
                [DriverCall.closeLogicalChannel sess.logicalChannel]
              else []) ++ [DriverCall.disconnect]⟩ := by
          unfold handleDisconnect
          rw [hs]
          simp [heq, hch, ho]
        refine ⟨by rw [hD], fun _ => ⟨by rw [hD], fun hok => ?_, fun e he => ?_⟩,
          fun hf => ?_⟩
        · cases hok
        · cases he
          rw [hD]
        · rw [hch] at hf; cases hf
  · have hchf : s.channel = false := by
      revert hch; cases s.channel <;> simp
    have hD : handleDisconnect o s r =
        ⟨NewPacketCmd CmdResponse, ⟨none, false⟩, []⟩ := by
      unfold handleDisconnect
      rw [hs]
      simp [heq, hchf]
    exact ⟨by rw [hD], fun hcontra => absurd hcontra hch, fun _ => by rw [hD]⟩

/-- Witness for C7 at a concrete input. -/
theorem disconnect_always_clears_session_witness :
    (handleDisconnect oracleOK ⟨some ⟨some ⟨1, 1⟩, InvalidChannel, 0, 0⟩, true⟩
        (some ⟨1, 1⟩)).state = ⟨none, false⟩ :=
  (disconnect_always_clears_session oracleOK
    ⟨some ⟨some ⟨1, 1⟩, InvalidChannel, 0, 0⟩, true⟩ ⟨some ⟨1, 1⟩, InvalidChannel, 0, 0⟩
    (some ⟨1, 1⟩) rfl (by decide)).1

theorem handleConnectBody_inv (o : DriverOracle) (now : Nat) (s1 : ServerState)
    (cs : List DriverCall) (pc : GoPacket) (r : Option UDPAddr)
    (h : s1.activeSession = none) :
    SessionInv (handleConnectBody o now s1 cs pc r).state := by
  unfold handleConnectBody
  cases hpc : pc.asConnect with
  | none => intro hsome; rw [h] at hsome; simp at hsome
  | some t =>
      obtain ⟨d, p, sl⟩ := t
      by_cases hp : p = "at" ∨ p = "mbim" ∨ p = "qmi" ∨ p = "qrtr"
      · simp only [if_pos hp]
        cases o.newDriver p d sl with
        | error e => intro hsome; rw [h] at hsome; simp at hsome
        | ok u =>
            cases o.connect with
            | error e => intro hsome; rw [h] at hsome; simp at hsome
            | ok u2 => intro _; rfl
      · simp only [if_neg hp]
        intro hsome; rw [h] at hsome; simp at hsome

theorem handleConnect_inv (o : DriverOracle) (timeout now : Nat) (s : ServerState)
    (pc : GoPacket) (r : Option UDPAddr) (hinv : SessionInv s) :
    SessionInv (handleConnect o timeout now s pc r).state := by
  unfold handleConnect
  cases hs : s.activeSession with
  | none => exact handleConnectBody_inv o now s [] pc r hs
  | some sess =>
      by_cases hfresh : now - sess.lastActivity < timeout
      · simp only [if_pos hfresh]
        exact hinv
      · simp only [if_neg hfresh]
        exact handleConnectBody_inv o now (forceCleanup s).1 (forceCleanup s).2 pc r
          (forceCleanup_activeSession s)

theorem handleDisconnect_inv (o : DriverOracle) (s : ServerState) (r : Option UDPAddr)
    (hinv : SessionInv s) : SessionInv (handleDisconnect o s r).state := by
  unfold handleDisconnect
  cases hs : s.activeSession with
  | none => exact hinv
  | some sess =>
      by_cases hne : ¬ addressesEqual sess.remoteAddr r = true
      · simp only [if_pos hne]
        exact hinv
      · simp only [if_neg hne]
        by_cases hch : s.channel = true
        · simp only [hch, if_true]
          cases o.disconnect <;> (intro hsome; simp at hsome)
        · have hchf : s.channel = false := by revert hch; cases s.channel <;> simp
          simp only [hchf, if_false]
          intro hsome; simp at hsome

theorem handleOpenLogical_total_inv (o : DriverOracle) (timeout now : Nat)
    (s : ServerState) (pc : GoPacket) (r : Option UDPAddr) (hinv : SessionInv s) :
    ∃ out, handleOpenLogical o timeout now s pc r = some out ∧ SessionInv out.state := by
  cases hs : s.activeSession with
  | none =>
      exact ⟨_, (by unfold handleOpenLogical; rw [checkSessionAuth_no_session timeout now s r hs]), hinv⟩
  | some sess =>
      by_cases heq : addressesEqual sess.remoteAddr r = true
      · by_cases hex : now - sess.lastActivity > timeout
        · exact ⟨_, (by unfold handleOpenLogical; rw [checkSessionAuth_expired timeout now s r sess hs heq hex]), sessionInv_forceCleanup s⟩
        · have hok := checkSessionAuth_ok timeout now s r sess hs heq hex
          have hch : s.channel = true := hinv (by rw [hs]; rfl)
          cases hb : pc.asBody with
          | none =>
              exact ⟨⟨NewPacketCmdErr CmdResponse "invalid packet type", s, []⟩,
                by simp [handleOpenLogical, hok, hb], hinv⟩
          | some b =>
              by_cases hlen : (b.getD []).length = 0
              · exact ⟨⟨NewPacketCmdErr CmdResponse "empty AID", s, []⟩,
                  by simp [handleOpenLogical, hok, hb, hlen], hinv⟩
              · cases ho : o.openLogicalChannel (b.getD []) with
                | error e =>
                    exact ⟨⟨NewPacketCmdErr CmdResponse e, s,
                      [DriverCall.openLogicalChannel (b.getD [])]⟩,
                      by simp [handleOpenLogical, hok, hb, hlen, hch, ho], hinv⟩
                | ok ch =>
                    exact ⟨⟨NewPacketBody CmdResponse [ch],
                      ⟨some { sess with logicalChannel := ch, lastActivity := now }, true⟩,
                      [DriverCall.openLogicalChannel (b.getD [])]⟩,
                      by simp [handleOpenLogical, hok, hb, hlen, hch, ho, hs],
                      fun _ => rfl⟩
      · have hne : addressesEqual sess.remoteAddr r = false := by
          revert heq; cases addressesEqual sess.remoteAddr r <;> simp
        exact ⟨_, (by unfold handleOpenLogical; rw [checkSessionAuth_unauthorized timeout now s r sess hs hne]), hinv⟩

theorem handleCloseLogical_total_inv (o : DriverOracle) (timeout now : Nat)
    (s : ServerState) (pc : GoPacket) (r : Option UDPAddr) (hinv : SessionInv s) :
    ∃ out, handleCloseLogical o timeout now s pc r = some out ∧ SessionInv out.state := by
  cases hs : s.activeSession with
  | none =>
      exact ⟨_, (by unfold handleCloseLogical; rw [checkSessionAuth_no_session timeout now s r hs]), hinv⟩
  | some sess =>
      by_cases heq : addressesEqual sess.remoteAddr r = true
      · by_cases hex : now - sess.lastActivity > timeout
        · exact ⟨_, (by unfold handleCloseLogical; rw [checkSessionAuth_expired timeout now s r sess hs heq hex]), sessionInv_forceCleanup s⟩
        · have hok := checkSessionAuth_ok timeout now s r sess hs heq hex
          have hch : s.channel = true := hinv (by rw [hs]; rfl)
          cases hb : pc.asBody with
          | none =>
              exact ⟨⟨NewPacketCmdErr CmdResponse "invalid packet", s, []⟩,
                by simp [handleCloseLogical, hok, hb], hinv⟩
          | some b =>
              cases hbd : b.getD [] with
              | nil =>
                  exact ⟨⟨NewPacketCmdErr CmdResponse "invalid packet", s, []⟩,
                    by simp [handleCloseLogical, hok, hb, hbd], hinv⟩
              | cons channel restb =>
                  cases ho : o.closeLogicalChannel channel with
                  | error e =>
                      exact ⟨⟨NewPacketCmdErr CmdResponse e, s,
                        [DriverCall.closeLogicalChannel channel]⟩,
                        by simp [handleCloseLogical, hok, hb, hbd, hch, ho], hinv⟩
                  | ok u =>
                      exact ⟨⟨NewPacketCmd CmdResponse,
                        ⟨some { sess with
                            logicalChannel :=
                              if sess.logicalChannel = channel then InvalidChannel
                              else sess.logicalChannel,
                            lastActivity := now }, true⟩,
                        [DriverCall.closeLogicalChannel channel]⟩,
                        by simp [handleCloseLogical, hok, hb, hbd, hch, ho, hs],
                        fun _ => rfl⟩
      · have hne : addressesEqual sess.remoteAddr r = false := by
          revert heq; cases addressesEqual sess.remoteAddr r <;> simp
        exact ⟨_, (by unfold handleCloseLogical; rw [checkSessionAuth_unauthorized timeout now s r sess hs hne]), hinv⟩

theorem handleTransmit_total_inv (o : DriverOracle) (timeout now : Nat)
    (s : ServerState) (pc : GoPacket) (r : Option UDPAddr) (hinv : SessionInv s) :
    ∃ out, handleTransmit o timeout now s pc r = some out ∧ SessionInv out.state := by
  cases hs : s.activeSession with
  | none =>
      exact ⟨_, (by unfold handleTransmit; rw [checkSessionAuth_no_session timeout now s r hs]), hinv⟩
  | some sess =>
      by_cases heq : addressesEqual sess.remoteAddr r = true
      · by_cases hex : now - sess.lastActivity > timeout
        · exact ⟨_, (by unfold handleTransmit; rw [checkSessionAuth_expired timeout now s r sess hs heq hex]), sessionInv_forceCleanup s⟩
        · have hok := checkSessionAuth_ok timeout now s r sess hs heq hex
          have hch : s.channel = true := hinv (by rw [hs]; rfl)
          cases hb : pc.asBody with
          | none =>
              exact ⟨⟨NewPacketCmdErr CmdResponse "invalid packet type", s, []⟩,
                by simp [handleTransmit, hok, hb], hinv⟩
          | some b =>
              by_cases hlen : (b.getD []).length = 0
              · exact ⟨⟨NewPacketCmdErr CmdResponse "empty APDU", s, []⟩,
                  by simp [handleTransmit, hok, hb, hlen], hinv⟩
              · cases ho : o.transmit (b.getD []) with
                | error e =>
                    exact ⟨⟨NewPacketCmdErr CmdResponse e, s,
                      [DriverCall.transmit (b.getD [])]⟩,
                      by simp [handleTransmit, hok, hb, hlen, hch, ho], hinv⟩
                | ok response =>
                    exact ⟨⟨NewPacketBody CmdResponse response,
                      ⟨some { sess with lastActivity := now }, true⟩,
                      [DriverCall.transmit (b.getD [])]⟩,
                      by simp [handleTransmit, hok, hb, hlen, hch, ho, hs],
                      fun _ => rfl⟩
      · have hne : addressesEqual sess.remoteAddr r = false := by
          revert heq; cases addressesEqual sess.remoteAddr r <;> simp
        exact ⟨_, (by unfold handleTransmit; rw [checkSessionAuth_unauthorized timeout now s r sess hs hne]), hinv⟩

/-- **C9.** The session invariant — an active session record implies a
live driver capability — holds initially (the idle state has neither) and
is preserved by every operation: each dispatched command completes
without dereferencing a nil capability (`handleCommand` returns `some`),
and the resulting state, as well as the states left by a reaper tick and
by the shutdown cleanup, satisfy the invariant again. -/
theorem session_invariant_preserved
    (o : DriverOracle) (timeout now : Nat) (s : ServerState)
    (pc : GoPacket) (r : Option UDPAddr) (hinv : SessionInv s) :
    SessionInv ⟨none, false⟩ ∧
    (∃ out, handleCommand o timeout now s pc r = some out ∧ SessionInv out.state) ∧
    SessionInv (forceCleanup s).1 ∧
    SessionInv (reaperTick timeout now s).1 ∧
    SessionInv (cleanupActiveSession s).1 := by
  refine ⟨by intro h; simp at h, ?_, sessionInv_forceCleanup s, ?_,
    sessionInv_forceCleanup s⟩
  · unfold handleCommand
    by_cases h1 : pc.getCmd = CmdConnect
    · simp only [if_pos h1]
      exact ⟨_, rfl, handleConnect_inv o timeout now s pc r hinv⟩
    simp only [if_neg h1]
    by_cases h2 : pc.getCmd = CmdDisconnect
    · simp only [if_pos h2]
      exact ⟨_, rfl, handleDisconnect_inv o s r hinv⟩
    simp only [if_neg h2]
    by_cases h3 : pc.getCmd = CmdOpenLogical
    · simp only [if_pos h3]
      exact handleOpenLogical_total_inv o timeout now s pc r hinv
    simp only [if_neg h3]
    by_cases h4 : pc.getCmd = CmdCloseLogical
    · simp only [if_pos h4]
      exact handleCloseLogical_total_inv o timeout now s pc r hinv
    simp only [if_neg h4]
    by_cases h5 : pc.getCmd = CmdTransmit
    · simp only [if_pos h5]
      exact handleTransmit_total_inv o timeout now s pc r hinv
    simp only [if_neg h5]
    exact ⟨_, rfl, hinv⟩
  · unfold reaperTick
    cases hs : s.activeSession with
    | none => exact hinv
    | some sess =>
        by_cases hex : now - sess.lastActivity > timeout
        · simp only [if_pos hex]
          exact sessionInv_forceCleanup s
        · simp only [if_neg hex]
          exact hinv

/-- Witness for C9 at a concrete input. -/
theorem session_invariant_preserved_witness :
    ∃ out, handleCommand oracleOK 60 0 ⟨some ⟨some ⟨1, 1⟩, InvalidChannel, 0, 0⟩, true⟩
        (NewPacketBody CmdOpenLogical [1, 2]) (some ⟨1, 1⟩) = some out ∧
      SessionInv out.state :=
  (session_invariant_preserved oracleOK 60 0
    ⟨some ⟨some ⟨1, 1⟩, InvalidChannel, 0, 0⟩, true⟩
    (NewPacketBody CmdOpenLogical [1, 2]) (some ⟨1, 1⟩) (by decide)).2.1

/-! ## Client-adapter theorems -/

theorem remoteCall_trace (no : NetOracle) (bufSize : Nat) (pcSnd : GoPacket) :
    (remoteCall no bufSize pcSnd).2 = [NetOp.write (Encode pcSnd)] ∨
    (remoteCall no bufSize pcSnd).2 = [NetOp.write (Encode pcSnd), NetOp.read] := by
  cases hw : no.write (Encode pcSnd) with
  | error e => left; simp [remoteCall, hw]
  | ok u =>
      cases hr : no.read with
      | error e => right; simp [remoteCall, hw, hr]
      | ok buf =>
          cases hd : Decode buf with
          | error e => right; simp [remoteCall, hw, hr, hd]
          | ok p =>
              by_cases hp : p.getErr = ""
              · cases hb : p.asBody <;>
                  (right; simp [remoteCall, hw, hr, hd, hp, hb])
              · right; simp [remoteCall, hw, hr, hd, hp]

theorem openLogicalChannel_trace_eq (no : NetOracle) (bufSize : Nat) (aid : List Nat) :
    (OpenLogicalChannel no bufSize aid).2 =
      (remoteCall no bufSize (NewPacketBody CmdOpenLogical aid)).2 := by
  simp only [OpenLogicalChannel]
  cases (remoteCall no bufSize (NewPacketBody CmdOpenLogical aid)).1 with
  | error er => rfl
  | ok bb =>
      cases bb with
      | none => rfl
      | some l => rcases l with _ | ⟨x, _ | ⟨y, rest⟩⟩ <;> rfl

/-- **C8.** The client adapter's `OpenLogicalChannel` performs exactly one
request/response round trip (one socket write, then at most one read);
a send or receive failure surfaces as the wrapped transport error; a
decoded response carrying a non-empty error string fails with the remote
error; a successful reply whose body is not exactly one byte fails with
the protocol error; and otherwise the single body byte is returned as the
channel id. -/
theorem openLogicalChannel_contract (no : NetOracle) (bufSize : Nat) (aid : List Nat) :
    ((OpenLogicalChannel no bufSize aid).2 =
        [NetOp.write (Encode (NewPacketBody CmdOpenLogical aid))] ∨
      (OpenLogicalChannel no bufSize aid).2 =
        [NetOp.write (Encode (NewPacketBody CmdOpenLogical aid)), NetOp.read]) ∧
    (∀ e, no.write (Encode (NewPacketBody CmdOpenLogical aid)) = .error e →
      (OpenLogicalChannel no bufSize aid).1 =
        (255, some ("error sending message " ++
          packetStr (NewPacketBody CmdOpenLogical aid) ++ " " ++ e))) ∧
    (∀ e, no.write (Encode (NewPacketBody CmdOpenLogical aid)) = .ok () →
      no.read = .error e →
      (OpenLogicalChannel no bufSize aid).1 =
        (255, some ("error receiving response " ++
          bytesHex (List.replicate (if bufSize = 0 then 2048 else bufSize) 0) ++
          " " ++ e))) ∧
    (∀ buf p, no.write (Encode (NewPacketBody CmdOpenLogical aid)) = .ok () →
      no.read = .ok buf → Decode buf = .ok p → p.getErr ≠ "" →
      (OpenLogicalChannel no bufSize aid).1 =
        (255, some ("error on server " ++ p.getErr))) ∧
    (∀ bb, (remoteCall no bufSize (NewPacketBody CmdOpenLogical aid)).1 = .ok bb →
      ((∀ x, bb ≠ some [x]) →
        (OpenLogicalChannel no bufSize aid).1 =
          (255, some "openlogicalchannel: empty channel received")) ∧
      (∀ x, bb = some [x] → (OpenLogicalChannel no bufSize aid).1 = (x, none))) := by
  refine ⟨?_, ?_, ?_, ?_, ?_⟩
  · rw [openLogicalChannel_trace_eq]
    exact remoteCall_trace no bufSize (NewPacketBody CmdOpenLogical aid)
  · intro e hw
    simp [OpenLogicalChannel, remoteCall, hw]
  · intro e hw hr
    simp [OpenLogicalChannel, remoteCall, hw, hr]
  · intro buf p hw hr hd hp
    simp [OpenLogicalChannel, remoteCall, hw, hr, hd, hp]
  · intro bb hok
    constructor
    · intro hne
      simp only [OpenLogicalChannel]
      cases hrc : (remoteCall no bufSize (NewPacketBody CmdOpenLogical aid)).1 with
      | error er => cases hok.symm.trans hrc
      | ok bb2 =>
          have hbb : bb2 = bb := by
            rw [hok] at hrc
            exact (Except.ok.inj hrc).symm
          subst hbb
          cases bb2 with
          | none => rfl
          | some l =>
              match l, hne with
              | [], _ => rfl
              | [x], hne => exact absurd rfl (hne x)
              | x :: y :: rest, _ => rfl
    · intro x hx
      subst hx
      simp only [OpenLogicalChannel]
      cases hrc : (remoteCall no bufSize (NewPacketBody CmdOpenLogical aid)).1 with
      | error er => rw [hok] at hrc; cases hrc
      | ok bb2 =>
          have hbb : bb2 = some [x] := by
            rw [hok] at hrc
            exact (Except.ok.inj hrc).symm
          subst hbb
          rfl

/-- Witness for C8 at a concrete input: a failing socket write. -/
theorem openLogicalChannel_contract_witness :
    (OpenLogicalChannel ⟨fun _ => .error "boom", .ok []⟩ 0 [5]).1 =
      (255, some ("error sending message " ++
        packetStr (NewPacketBody CmdOpenLogical [5]) ++ " " ++ "boom")) :=
  (openLogicalChannel_contract ⟨fun _ => .error "boom", .ok []⟩ 0 [5]).2.1 "boom" rfl

/-- **C10.** Whenever the client adapter's `OpenLogicalChannel` fails —
whatever the failing path — the channel value it returns is 255, which
lies inside the 0–255 range of valid channel ids. -/
theorem openLogicalChannel_error_value (no : NetOracle) (bufSize : Nat) (aid : List Nat)
    (herr : (OpenLogicalChannel no bufSize aid).1.2 ≠ none) :
    (OpenLogicalChannel no bufSize aid).1.1 = 255 ∧
    (OpenLogicalChannel no bufSize aid).1.1 ≤ 255 := by
  simp only [OpenLogicalChannel] at herr ⊢
  cases hrc : (remoteCall no bufSize (NewPacketBody CmdOpenLogical aid)).1 with
  | error er => exact ⟨rfl, Nat.le_refl 255⟩
  | ok bb =>
      rw [hrc] at herr
      cases bb with
      | none => exact ⟨rfl, Nat.le_refl 255⟩
      | some l =>
          match l, herr with
          | [], _ => exact ⟨rfl, Nat.le_refl 255⟩
          | [x], herr => exact absurd rfl herr
          | x :: y :: rest, _ => exact ⟨rfl, Nat.le_refl 255⟩

/-- Witness for C10 at a concrete input: a failing socket write. -/
theorem openLogicalChannel_error_value_witness :
    (OpenLogicalChannel ⟨fun _ => .error "boom", .ok []⟩ 0 [5]).1.1 = 255 ∧
    (OpenLogicalChannel ⟨fun _ => .error "boom", .ok []⟩ 0 [5]).1.1 ≤ 255 :=
  openLogicalChannel_error_value ⟨fun _ => .error "boom", .ok []⟩ 0 [5] (by
    intro h
    simp [OpenLogicalChannel, remoteCall] at h)

/-! ## Codec claim theorems -/

/-- **C2 (counterexample).** The round trip does not preserve the
distinction between an empty and an absent payload: a `PacketBody` with
an empty (length-0, non-nil) body decodes back with a nil body, because
gob's zero test for slices is `len == 0` and zero fields are omitted from
the transmission. -/
theorem roundtrip_drops_empty_payload :
    Decode (Encode (GoPacket.body CmdResponse "" (some []))) =
      Except.ok (GoPacket.body CmdResponse "" none) ∧
    GoPacket.body CmdResponse "" (none : Option (List Nat)) ≠
      GoPacket.body CmdResponse "" (some []) :=
  ⟨rfl, by decide⟩

/-- **C2 (amended).** `Decode (Encode p)` always succeeds and reproduces
`p`'s command tag, error string and device/protocol/slot fields exactly,
and its payload up to one normalization: an empty payload comes back as
the absent (nil) payload, while absent and non-empty payloads are
reproduced exactly. -/
theorem roundtrip_exact_up_to_empty_payload (p : GoPacket) :
    Decode (Encode p) = Except.ok (normalizePayload p) ∧
    (normalizePayload p).getCmd = p.getCmd ∧
    (normalizePayload p).getErr = p.getErr ∧
    (∀ c e, p = GoPacket.plain c e → normalizePayload p = p) ∧
    (∀ c e d pr sl, p = GoPacket.conn c e d pr sl → normalizePayload p = p) ∧
    (∀ c e b, p = GoPacket.body c e b → b.getD [] ≠ [] → normalizePayload p = p) :=
  ⟨decode_encode p,
    by cases p <;> rfl,
    by cases p <;> rfl,
    fun c e h => by subst h; rfl,
    fun c e d pr sl h => by subst h; rfl,
    fun c e b h hb => by
      subst h
      cases b with
      | none => exact absurd rfl hb
      | some l =>
          have hl : l ≠ [] := by simpa using hb
          simp [normalizePayload, normBody, hl]⟩

/-- Witness for the amended C2 at a concrete input: a non-empty payload
round-trips exactly. -/
theorem roundtrip_exact_up_to_empty_payload_witness :
    Decode (Encode (GoPacket.body CmdResponse "" (some [7]))) =
      Except.ok (normalizePayload (GoPacket.body CmdResponse "" (some [7]))) ∧
    normalizePayload (GoPacket.body CmdResponse "" (some [7])) =
      GoPacket.body CmdResponse "" (some [7]) :=
  ⟨(roundtrip_exact_up_to_empty_payload (GoPacket.body CmdResponse "" (some [7]))).1,
    (roundtrip_exact_up_to_empty_payload
        (GoPacket.body CmdResponse "" (some [7]))).2.2.2.2.2
      CmdResponse "" (some [7]) rfl (by decide)⟩

/-- **C3.** `Decode` is total on arbitrary byte sequences — it returns a
packet or an error, never a fault (Go's gob converts internal panics to
returned errors) — and it rejects malformed input: any sequence whose
first three bytes are not the gzip header fails, and every strict prefix
of a valid encoding (truncated anywhere: in the header, the type name or
a field) fails. -/
theorem decode_total_rejects_malformed :
    (∀ l : List Nat, (∃ p, Decode l = .ok p) ∨ (∃ e, Decode l = .error e)) ∧
    (∀ (m1 m2 cm : Nat) (rest : List Nat), ¬ (m1 = 31 ∧ m2 = 139 ∧ cm = 8) →
      Decode (m1 :: m2 :: cm :: rest) = .error "gzip: invalid header") ∧
    (∀ l : List Nat, l.length < 3 → ∃ e, Decode l = .error e) ∧
    (∀ (p : GoPacket) (k : Nat), k < (Encode p).length →
      ∃ e, Decode ((Encode p).take k) = .error e) := by
  refine ⟨?_, ?_, ?_, ?_⟩
  · intro l
    cases hd : Decode l with
    | ok p => exact Or.inl ⟨p, rfl⟩
    | error e => exact Or.inr ⟨e, rfl⟩
  · intro m1 m2 cm rest hne
    simp [Decode, hne]
  · intro l hlen
    match l, hlen with
    | [], _ => exact ⟨_, rfl⟩
    | [a], _ => exact ⟨_, rfl⟩
    | [a, b], _ => exact ⟨_, rfl⟩
  · intro p k hk
    match k with
    | 0 => exact ⟨_, rfl⟩
    | 1 => exact ⟨_, rfl⟩
    | 2 => exact ⟨_, rfl⟩
    | (m + 3) =>
        have hm : m < (gobEncode p).length := by
          simpa [Encode] using hk
        refine ⟨"gob: malformed packet", ?_⟩
        simp [Encode, Decode, List.take_succ_cons, gobDecode_take_short p m hm]

/-- Witness for C3 at a concrete input: a five-byte prefix of an encoded
response packet fails to decode. -/
theorem decode_total_rejects_malformed_witness :
    ∃ e, Decode ((Encode (NewPacketCmd CmdResponse)).take 5) = Except.error e :=
  decode_total_rejects_malformed.2.2.2 (NewPacketCmd CmdResponse) 5 (by decide)

end EuiccGo
